import Mathlib

/-!
Shallow embedding of the jina-mcp-tools request adapter (src/index.js, plus the
legacy variant's fact-check tool). JavaScript strings are modelled as `List Char`;
the `fetch` network call is modelled as an oracle from requests to outcomes, and
each tool handler returns its tool result together with the list of requests it
issued.
-/

/-- JavaScript string, modelled as a list of characters. -/
abbrev JStr := List Char

/-- Coerce a Lean string literal to the `JStr` model. -/
def jstr (s : String) : JStr := s.toList

/-- Prefix test on `JStr` (used to model regex literal matching and
`String.prototype.includes`). -/
def isPre : JStr → JStr → Bool
  | [], _ => true
  | _ :: _, [] => false
  | p :: ps, c :: cs => if p = c then isPre ps cs else false

/-- Strip a literal prefix, returning the remainder on success. -/
def stripPre : JStr → JStr → Option JStr
  | [], s => some s
  | _ :: _, [] => none
  | p :: ps, c :: cs => if p = c then stripPre ps cs else none

/-- JavaScript `String.prototype.includes`: does `needle` occur anywhere in `hay`? -/
def includesSub (needle : JStr) : JStr → Bool
  | [] => decide (needle = [])
  | c :: t => isPre needle (c :: t) || includesSub needle t

/-- JavaScript `String.prototype.replace` with a plain-string pattern: replace the
first occurrence only; if the pattern does not occur the string is unchanged. -/
def replaceFirst (pat rep : JStr) : JStr → JStr
  | [] => []
  | c :: t => if isPre pat (c :: t) then
      match stripPre pat (c :: t) with
      | some rest => rep ++ rest
      | none => c :: replaceFirst pat rep t
    else c :: replaceFirst pat rep t

/-- Hexadecimal digit with the `i` flag, as in the regex `[a-f0-9]` of `/^[a-f0-9]{40}$/i`. -/
def isHexDigitI (c : Char) : Bool :=
  (decide ('0' ≤ c) && decide (c ≤ '9')) ||
  (decide ('a' ≤ c) && decide (c ≤ 'f')) ||
  (decide ('A' ≤ c) && decide (c ≤ 'F'))

/-- The source's commit-hash test `/^[a-f0-9]{40}$/i.test(ref)`. -/
def isCommitHash (ref : JStr) : Bool :=
  decide (ref.length = 40) && ref.all isHexDigitI

/-- JavaScript regex line terminators, which `.` does not match. -/
def isLineTerm (c : Char) : Bool :=
  c == '\n' || c == '\r' || c == ' ' || c == ' '

/-- Attempt to match the regex `github\.com\/([^\/]+)\/([^\/]+)\/blob\/([^\/]+)\/?(.*)`
at the start of `s`, returning the four capture groups (owner, repo, ref, path).
Each `[^\/]+` is greedy; since it cannot contain a slash and is followed by a
slash-initial literal, greedy matching coincides with taking the maximal
slash-free run. `\/?` greedily consumes one slash if present and `(.*)` takes
everything up to the first line terminator. -/
def blobMatchAt (s : JStr) : Option (JStr × JStr × JStr × JStr) :=
  match stripPre (jstr "github.com/") s with
  | none => none
  | some s1 =>
    let owner := s1.takeWhile (fun c => c != '/')
    if owner = [] then none else
    match s1.dropWhile (fun c => c != '/') with
    | '/' :: s2 =>
      let repo := s2.takeWhile (fun c => c != '/')
      if repo = [] then none else
      match stripPre (jstr "/blob/") (s2.dropWhile (fun c => c != '/')) with
      | none => none
      | some s3 =>
        let ref := s3.takeWhile (fun c => c != '/')
        if ref = [] then none else
        let s4 := s3.dropWhile (fun c => c != '/')
        let s5 := match s4 with
          | '/' :: t => t
          | t => t
        some (owner, repo, ref, s5.takeWhile (fun c => !isLineTerm c))
    | _ => none

/-- Leftmost match of the blob regex over the whole string, as JavaScript
`String.prototype.match` computes it for a non-global regex. -/
def blobSearch : JStr → Option (JStr × JStr × JStr × JStr)
  | [] => none
  | c :: t =>
    match blobMatchAt (c :: t) with
    | some g => some g
    | none => blobSearch t

/-- Result record of `handleGitHubUrl` (src/index.js lines 65-109). -/
structure GhResult where
  isGitHub : Bool
  convertedUrl : JStr
  originalUrl : JStr
  shouldBypassJina : Bool
deriving DecidableEq, Repr

/-- The URL classifier `handleGitHubUrl` of src/index.js: detects GitHub blob
URLs, rewrites them to raw.githubusercontent.com form (commit hashes verbatim,
branch names behind `refs/heads/`), and falls back to naive textual substitution
when the regex fails to match. -/
def handleGitHubUrl (url : JStr) : GhResult :=
  let isGitHub := includesSub (jstr "github.com") url && includesSub (jstr "/blob/") url
  if isGitHub then
    let convertedUrl :=
      match blobSearch url with
      | some (owner, repo, ref, path) =>
        if isCommitHash ref then
          jstr "https://raw.githubusercontent.com/" ++ (owner ++ ('/' :: (repo ++ ('/' :: (ref ++ ('/' :: path))))))
        else
          jstr "https://raw.githubusercontent.com/" ++ (owner ++ ('/' :: (repo ++ (jstr "/refs/heads/" ++ (ref ++ ('/' :: path))))))
      | none =>
        replaceFirst (jstr "/blob/") (jstr "/")
          (replaceFirst (jstr "github.com") (jstr "raw.githubusercontent.com") url)
    { isGitHub := true, convertedUrl := convertedUrl, originalUrl := url, shouldBypassJina := true }
  else
    { isGitHub := false, convertedUrl := url, originalUrl := url, shouldBypassJina := false }

/-! ## Header sets -/

/-- A JavaScript object used as a header map: an ordered association list. -/
abbrev HeaderSet := List (String × String)

/-- JavaScript property assignment `hs[k] = v` on a header object: overwrite in
place when the key exists, append otherwise. -/
def setHeader (hs : HeaderSet) (k v : String) : HeaderSet :=
  if hs.any (fun p => p.1 = k) then
    hs.map (fun p => if p.1 = k then (k, v) else p)
  else hs ++ [(k, v)]

/-- Property lookup on a header object. -/
def getHeader (hs : HeaderSet) (k : String) : Option String :=
  match hs.find? (fun p => p.1 = k) with
  | some p => some p.2
  | none => none

/-- `createHeaders` of src/index.js lines 14-23: copy the base headers and add a
bearer `Authorization` header when the environment credential is present. -/
def createHeaders (apiKey : Option String) (baseHeaders : HeaderSet) : HeaderSet :=
  match apiKey with
  | some key => setHeader baseHeaders "Authorization" ("Bearer " ++ key)
  | none => baseHeaders

/-- The reader tool's three extraction modes (src/index.js lines 36-43). -/
inductive ExtractionMode where
  | standard
  | comprehensive
  | clean_content
deriving DecidableEq, Repr

/-- The reader tool's four output formats (src/index.js lines 49-58). -/
inductive OutputFormat where
  | default
  | markdown
  | text
  | structured
deriving DecidableEq, Repr

/-- `buildJinaHeaders` of src/index.js lines 118-179: base content-type/accept
headers, a fixed GitHub preset when `isGitHub`, otherwise mode-derived settings
followed by format-derived settings. -/
def buildJinaHeaders (mode : ExtractionMode) (format : OutputFormat) (isGitHub : Bool) :
    HeaderSet :=
  let baseHeaders : HeaderSet :=
    [("Content-Type", "application/json"), ("Accept", "application/json")]
  if isGitHub then
    baseHeaders ++ [("X-Engine", "direct"), ("X-Return-Format", "text"), ("X-Timeout", "10")]
  else
    let h1 :=
      match mode with
      | .standard =>
        setHeader (setHeader (setHeader baseHeaders "X-Engine" "direct")
          "X-With-Links-Summary" "true") "X-Timeout" "10"
      | .comprehensive =>
        setHeader (setHeader (setHeader (setHeader baseHeaders "X-Engine" "browser")
          "X-With-Links-Summary" "true") "X-With-Images-Summary" "true") "X-Timeout" "15"
      | .clean_content =>
        setHeader (setHeader (setHeader (setHeader baseHeaders "X-Engine" "browser")
          "X-Target-Selector" "main,article,.content")
          "X-Remove-Selector" "nav,header,footer,.sidebar,.ads") "X-Timeout" "15"
    match format with
    | .default => h1
    | .markdown => setHeader h1 "X-Return-Format" "markdown"
    | .text => setHeader h1 "X-Return-Format" "text"
    | .structured =>
      setHeader (setHeader (setHeader h1 "X-Return-Format" "markdown")
        "X-With-Links-Summary" "true") "X-With-Images-Summary" "true"

/-- The reader handler's custom-timeout override (src/index.js lines 235-237):
`if (customTimeout) jinaHeaders["X-Timeout"] = customTimeout.toString()`, where a
numeric value is truthy unless it is zero. -/
def withCustomTimeout (hs : HeaderSet) (customTimeout : Option Int) : HeaderSet :=
  match customTimeout with
  | some t => if t ≠ 0 then setHeader hs "X-Timeout" (toString t) else hs
  | none => hs

/-! ## JSON values, requests and responses -/

/-- A parsed JSON value (result of `response.json()` / input of `JSON.stringify`). -/
inductive Json where
  | null
  | bool (b : Bool)
  | num (n : Int)
  | str (s : String)
  | arr (elems : List Json)
  | obj (fields : List (String × Json))

/-- JavaScript truthiness of a defined value. -/
def Json.truthy : Json → Bool
  | .null => false
  | .bool b => b
  | .num n => decide (n ≠ 0)
  | .str s => decide (s ≠ "")
  | .arr _ => true
  | .obj _ => true

/-- Field lookup on an object value; `none` for missing fields and non-objects. -/
def Json.lookup : Json → String → Option Json
  | .obj fields, k => (fields.find? (fun p => p.1 = k)).map (fun p => p.2)
  | _, _ => none

/-- JavaScript property access `v[k]`: throws a `TypeError` on `null`, yields
`undefined` (here `none`) for missing fields and non-object values. -/
def jsGet (v : Json) (k : String) : Except String (Option Json) :=
  match v with
  | .null => .error ("TypeError: Cannot read properties of null (reading " ++ k ++ ")")
  | .obj fields => .ok ((fields.find? (fun p => p.1 = k)).map (fun p => p.2))
  | _ => .ok none

/-- Truthiness of a possibly-`undefined` value. -/
def truthyO : Option Json → Bool
  | none => false
  | some j => j.truthy

/-- An outgoing HTTP request. `body` is the JavaScript value passed through
`JSON.stringify`, or `none` for a body-less request. -/
structure Request where
  method : String
  url : JStr
  headers : HeaderSet
  body : Option Json

/-- An HTTP response as the handlers observe it: `body` is what `.text()` returns
and `json` is what `.json()` returns (a parse error on malformed JSON). -/
structure Response where
  status : Nat
  statusText : String
  body : String
  json : Except String Json

/-- `response.ok`: status in the inclusive range 200-299. -/
def respOk (r : Response) : Bool := decide (200 ≤ r.status) && decide (r.status ≤ 299)

/-- Outcome of a `fetch` call: a response, or a rejected promise whose error
message is caught by the handler's `catch`. -/
inductive FetchOutcome where
  | success (resp : Response)
  | networkError (msg : String)

/-- The value a handler returns to the tool registry: one text content segment
(its JavaScript value) and the error flag (absent means `false`). -/
structure ToolResult where
  text : Json
  isError : Bool

/-- The string carried by a text tool result (empty for non-string values). -/
def ToolResult.textString (tr : ToolResult) : String :=
  match tr.text with
  | .str s => s
  | _ => ""

/-! ## encodeURIComponent -/

/-- Characters `encodeURIComponent` leaves unescaped. -/
def isUriUnreserved (c : Char) : Bool :=
  c.isAlpha || c.isDigit ||
  c == '-' || c == '_' || c == '.' || c == '!' || c == '~' || c == '*' ||
  c == '(' || c == ')' || c == '\x27'

/-- Uppercase hexadecimal digit. -/
def hexDigitChar (n : Nat) : Char :=
  if n < 10 then Char.ofNat (48 + n) else Char.ofNat (55 + n)

/-- UTF-8 encoding of a Unicode scalar value, as byte values. -/
def utf8Bytes (n : Nat) : List Nat :=
  if n < 0x80 then [n]
  else if n < 0x800 then [0xC0 + n / 64, 0x80 + n % 64]
  else if n < 0x10000 then [0xE0 + n / 4096, 0x80 + n / 64 % 64, 0x80 + n % 64]
  else [0xF0 + n / 262144, 0x80 + n / 4096 % 64, 0x80 + n / 64 % 64, 0x80 + n % 64]

/-- JavaScript `encodeURIComponent`: percent-encode every UTF-8 byte of every
character outside the unreserved set. -/
def encodeURIComponent (s : JStr) : JStr :=
  s.flatMap (fun c =>
    if isUriUnreserved c then [c]
    else (utf8Bytes c.toNat).flatMap (fun b => ['%', hexDigitChar (b / 16), hexDigitChar (b % 16)]))

/-! ## Tool handlers -/

/-- The `jina_reader` tool handler (src/index.js lines 207-272), with `fetch`
supplied as an oracle. Returns the tool result and the list of issued requests.
On the GitHub bypass path the single request is a plain GET with no headers; on
the regular path one POST carries the built headers and the `{url}` JSON body.
Every error is caught and converted into a result with `isError := true`. -/
def jina_reader (apiKey : Option String) (url : JStr) (mode : ExtractionMode)
    (format : OutputFormat) (customTimeout : Option Int)
    (fetch : Request → FetchOutcome) : ToolResult × List Request :=
  let r := handleGitHubUrl url
  let actualUrl := r.convertedUrl
  if r.shouldBypassJina then
    let req : Request := { method := "GET", url := actualUrl, headers := [], body := none }
    match fetch req with
    | .networkError msg => ({ text := .str msg, isError := true }, [req])
    | .success resp =>
      if respOk resp then
        ({ text := .str resp.body, isError := false }, [req])
      else
        ({ text := .str ("GitHub API error (" ++ (toString resp.status ++ ("): " ++ resp.statusText))),
           isError := true }, [req])
  else
    let jinaHeaders := withCustomTimeout (buildJinaHeaders mode format r.isGitHub) customTimeout
    let headers := createHeaders apiKey jinaHeaders
    let req : Request :=
      { method := "POST", url := jstr "https://r.jina.ai/", headers := headers,
        body := some (Json.obj [("url", Json.str (String.mk actualUrl))]) }
    match fetch req with
    | .networkError msg => ({ text := .str msg, isError := true }, [req])
    | .success resp =>
      if respOk resp then
        match resp.json with
        | .error msg => ({ text := .str msg, isError := true }, [req])
        | .ok data =>
          match jsGet data "data" with
          | .error msg => ({ text := .str msg, isError := true }, [req])
          | .ok dataField =>
            let responseData := if truthyO dataField then dataField.getD (Json.obj []) else Json.obj []
            match jsGet responseData "content" with
            | .error msg => ({ text := .str msg, isError := true }, [req])
            | .ok contentField =>
              let resultText :=
                if truthyO contentField then contentField.getD (Json.str "No content extracted")
                else Json.str "No content extracted"
              ({ text := resultText, isError := false }, [req])
      else
        ({ text := .str ("Jina Reader API error (" ++ (toString resp.status ++ ("): " ++ resp.body))),
           isError := true }, [req])

/-- The `jina_search` tool handler (src/index.js lines 287-327): one GET to the
search endpoint with the URL-encoded query, a no-content directive, an optional
site filter header, and the credential header; on success the raw response text
is returned unmodified. The `count` parameter is never used. -/
def jina_search (apiKey : Option String) (query : JStr) (count : Int)
    (siteFilter : Option String) (fetch : Request → FetchOutcome) :
    ToolResult × List Request :=
  let baseHeaders : HeaderSet := [("X-Respond-With", "no-content")]
  let baseHeaders2 :=
    match siteFilter with
    | some sf => if sf ≠ "" then setHeader baseHeaders "X-Site" ("https://" ++ sf) else baseHeaders
    | none => baseHeaders
  let headers := createHeaders apiKey baseHeaders2
  let req : Request :=
    { method := "GET", url := jstr "https://s.jina.ai/?q=" ++ encodeURIComponent query,
      headers := headers, body := none }
  match fetch req with
  | .networkError msg => ({ text := .str msg, isError := true }, [req])
  | .success resp =>
    if respOk resp then
      ({ text := .str resp.body, isError := false }, [req])
    else
      ({ text := .str ("Jina Search API error (" ++ (toString resp.status ++ ("): " ++ resp.body))),
         isError := true }, [req])

/-- The request issued by the legacy `jina_fact_check` tool handler
(src/unnamed/part_000 lines 201-215): one POST to the fact-check endpoint with
content-type/accept headers, the credential header when present, and the
`{statement, deepdive}` JSON body. -/
def jina_fact_check_request (apiKey : Option String) (statement : String)
    (deepdive : Bool) : Request :=
  { method := "POST", url := jstr "https://g.jina.ai/",
    headers := createHeaders apiKey
      [("Content-Type", "application/json"), ("Accept", "application/json")],
    body := some (Json.obj [("statement", Json.str statement), ("deepdive", Json.bool deepdive)]) }



/-! ## Helper lemmas -/

theorem isPre_self_append (l r : JStr) : isPre l (l ++ r) = true := by
  induction l with
  | nil => rfl
  | cons c t ih => simp [isPre, ih]

theorem stripPre_self_append (p r : JStr) : stripPre p (p ++ r) = some r := by
  induction p with
  | nil => rfl
  | cons c t ih => simp [stripPre, ih]

theorem includesSub_self_append (n r : JStr) : includesSub n (n ++ r) = true := by
  cases n with
  | nil =>
    cases r with
    | nil => rfl
    | cons c t => simp [includesSub, isPre]
  | cons c t =>
    show includesSub (c :: t) (c :: (t ++ r)) = true
    simp [includesSub]
    exact Or.inl (isPre_self_append (c :: t) r)

theorem includesSub_cons_of (n : JStr) (c : Char) (t : JStr) (h : includesSub n t = true) :
    includesSub n (c :: t) = true := by
  simp [includesSub, h]

theorem includesSub_append_left (p n s : JStr) (h : includesSub n s = true) :
    includesSub n (p ++ s) = true := by
  induction p with
  | nil => exact h
  | cons c t ih => exact includesSub_cons_of _ _ _ ih

theorem takeWhile_append_of_all (p : Char → Bool) (l r : JStr) (h : ∀ c ∈ l, p c = true) :
    (l ++ r).takeWhile p = l ++ r.takeWhile p := by
  induction l with
  | nil => rfl
  | cons c t ih =>
    have hc : p c = true := h c (by simp)
    simp [List.takeWhile_cons, hc, ih (fun x hx => h x (by simp [hx]))]

theorem dropWhile_append_of_all (p : Char → Bool) (l r : JStr) (h : ∀ c ∈ l, p c = true) :
    (l ++ r).dropWhile p = r.dropWhile p := by
  induction l with
  | nil => rfl
  | cons c t ih =>
    have hc : p c = true := h c (by simp)
    simp [List.dropWhile_cons, hc, ih (fun x hx => h x (by simp [hx]))]

theorem takeWhile_of_all (p : Char → Bool) (l : JStr) (h : ∀ c ∈ l, p c = true) :
    l.takeWhile p = l := by
  have := takeWhile_append_of_all p l [] h
  simpa using this

theorem getHeader_cons_same (a : String × String) (t : HeaderSet) (k : String)
    (h : a.1 = k) : getHeader (a :: t) k = some a.2 := by
  unfold getHeader
  rw [List.find?_cons_of_pos _ (by simp [h])]

theorem getHeader_cons_ne (a : String × String) (t : HeaderSet) (k : String)
    (h : ¬ (a.1 = k)) : getHeader (a :: t) k = getHeader t k := by
  unfold getHeader
  rw [List.find?_cons_of_neg _ (by simp [h])]

theorem getHeader_map_set_same (hs : HeaderSet) (k v : String)
    (h : hs.any (fun p => p.1 = k) = true) :
    getHeader (hs.map (fun p => if p.1 = k then (k, v) else p)) k = some v := by
  induction hs with
  | nil => simp at h
  | cons a t ih =>
    by_cases ha : a.1 = k
    · simp only [List.map_cons, if_pos ha]
      exact getHeader_cons_same _ _ _ rfl
    · have h2 : t.any (fun p => p.1 = k) = true := by
        simp [List.any_cons, ha] at h
        simpa using h
      simp only [List.map_cons, if_neg ha]
      rw [getHeader_cons_ne _ _ _ ha]
      exact ih h2

theorem getHeader_append_single_same (hs : HeaderSet) (k v : String)
    (h : hs.any (fun p => p.1 = k) = false) :
    getHeader (hs ++ [(k, v)]) k = some v := by
  induction hs with
  | nil => exact getHeader_cons_same _ _ _ rfl
  | cons a t ih =>
    have ha : ¬ (a.1 = k) := by
      intro e
      simp [List.any_cons, e] at h
    have h2 : t.any (fun p => p.1 = k) = false := by
      simp [List.any_cons, ha] at h
      simpa using h
    rw [List.cons_append, getHeader_cons_ne _ _ _ ha]
    exact ih h2

theorem getHeader_set_same (hs : HeaderSet) (k v : String) :
    getHeader (setHeader hs k v) k = some v := by
  unfold setHeader
  by_cases hany : hs.any (fun p => p.1 = k) = true
  · rw [if_pos hany]
    exact getHeader_map_set_same hs k v hany
  · rw [if_neg hany]
    exact getHeader_append_single_same hs k v (Bool.eq_false_iff.mpr hany)

theorem getHeader_map_set_other (hs : HeaderSet) (k v k2 : String) (h : k2 ≠ k) :
    getHeader (hs.map (fun p => if p.1 = k then (k, v) else p)) k2 = getHeader hs k2 := by
  induction hs with
  | nil => rfl
  | cons a t ih =>
    by_cases ha : a.1 = k
    · have hk2 : ¬ ((k, v).1 = k2) := fun e => h e.symm
      have ha2 : ¬ (a.1 = k2) := by rw [ha]; exact fun e => h e.symm
      simp only [List.map_cons, if_pos ha]
      rw [getHeader_cons_ne _ _ _ hk2, getHeader_cons_ne _ _ _ ha2]
      exact ih
    · simp only [List.map_cons, if_neg ha]
      by_cases ha2 : a.1 = k2
      · rw [getHeader_cons_same _ _ _ ha2, getHeader_cons_same _ _ _ ha2]
      · rw [getHeader_cons_ne _ _ _ ha2, getHeader_cons_ne _ _ _ ha2]
        exact ih

theorem getHeader_append_single_other (hs : HeaderSet) (k v k2 : String) (h : k2 ≠ k) :
    getHeader (hs ++ [(k, v)]) k2 = getHeader hs k2 := by
  induction hs with
  | nil =>
    rw [List.nil_append, getHeader_cons_ne _ _ _ (fun e => h e.symm)]
  | cons a t ih =>
    by_cases ha2 : a.1 = k2
    · rw [List.cons_append, getHeader_cons_same _ _ _ ha2, getHeader_cons_same _ _ _ ha2]
    · rw [List.cons_append, getHeader_cons_ne _ _ _ ha2, getHeader_cons_ne _ _ _ ha2]
      exact ih

theorem getHeader_set_other (hs : HeaderSet) (k v k2 : String) (h : k2 ≠ k) :
    getHeader (setHeader hs k v) k2 = getHeader hs k2 := by
  unfold setHeader
  by_cases hany : hs.any (fun p => p.1 = k) = true
  · rw [if_pos hany]
    exact getHeader_map_set_other hs k v k2 h
  · rw [if_neg hany]
    exact getHeader_append_single_other hs k v k2 h

theorem blobMatchAt_cons_ne (c : Char) (t : JStr) (h : c ≠ 'g') :
    blobMatchAt (c :: t) = none := by
  have h1 : stripPre (jstr "github.com/") (c :: t) = none := by
    have h2 : stripPre (jstr "github.com/") (c :: t)
        = if 'g' = c then stripPre (jstr "ithub.com/") t else none := rfl
    rw [h2, if_neg (fun e => h e.symm)]
  simp [blobMatchAt, h1]

theorem blobSearch_cons_of_none (c : Char) (t : JStr) (h : blobMatchAt (c :: t) = none) :
    blobSearch (c :: t) = blobSearch t := by
  simp [blobSearch, h]

theorem blobSearch_cons_of_some (c : Char) (t : JStr) (g : JStr × JStr × JStr × JStr)
    (h : blobMatchAt (c :: t) = some g) : blobSearch (c :: t) = some g := by
  simp [blobSearch, h]

theorem blobSearch_append_no_g (p s : JStr) (h : ∀ c ∈ p, c ≠ 'g') :
    blobSearch (p ++ s) = blobSearch s := by
  induction p with
  | nil => rfl
  | cons c t ih =>
    rw [List.cons_append,
      blobSearch_cons_of_none _ _ (blobMatchAt_cons_ne _ _ (h c (by simp))),
      ih (fun x hx => h x (by simp [hx]))]

theorem notSlash_of_not_mem (l : JStr) (hl : '/' ∉ l) :
    ∀ c ∈ l, ((c != '/') = true) := by
  intro c hc
  simp only [bne_iff_ne, ne_eq]
  exact fun e => hl (e ▸ hc)

theorem blobMatchAt_canonical (owner repo ref path : JStr)
    (ho : owner ≠ []) (ho2 : '/' ∉ owner)
    (hr : repo ≠ []) (hr2 : '/' ∉ repo)
    (hf : ref ≠ []) (hf2 : '/' ∉ ref)
    (hp : ∀ c ∈ path, isLineTerm c = false) :
    blobMatchAt (jstr "github.com/" ++
        (owner ++ ('/' :: (repo ++ (jstr "/blob/" ++ (ref ++ ('/' :: path))))))) =
      some (owner, repo, ref, path) := by
  have pOwn := notSlash_of_not_mem owner ho2
  have pRepo := notSlash_of_not_mem repo hr2
  have pRef := notSlash_of_not_mem ref hf2
  have hSlash : (('/' : Char) != '/') = false := by decide
  have hT1 : (owner ++ ('/' :: (repo ++ (jstr "/blob/" ++ (ref ++ ('/' :: path)))))).takeWhile
      (fun c => c != '/') = owner := by
    rw [takeWhile_append_of_all _ _ _ pOwn, List.takeWhile_cons, hSlash]
    simp
  have hT2 : (owner ++ ('/' :: (repo ++ (jstr "/blob/" ++ (ref ++ ('/' :: path)))))).dropWhile
      (fun c => c != '/') = '/' :: (repo ++ (jstr "/blob/" ++ (ref ++ ('/' :: path)))) := by
    rw [dropWhile_append_of_all _ _ _ pOwn, List.dropWhile_cons, hSlash]
    simp
  have hT3 : (repo ++ (jstr "/blob/" ++ (ref ++ ('/' :: path)))).takeWhile
      (fun c => c != '/') = repo := by
    rw [takeWhile_append_of_all _ _ _ pRepo]
    show repo ++ List.takeWhile (fun c => c != '/') ('/' :: (jstr "blob/" ++ (ref ++ ('/' :: path)))) = repo
    rw [List.takeWhile_cons, hSlash]
    simp
  have hT4 : (repo ++ (jstr "/blob/" ++ (ref ++ ('/' :: path)))).dropWhile
      (fun c => c != '/') = jstr "/blob/" ++ (ref ++ ('/' :: path)) := by
    rw [dropWhile_append_of_all _ _ _ pRepo]
    show List.dropWhile (fun c => c != '/') ('/' :: (jstr "blob/" ++ (ref ++ ('/' :: path))))
        = jstr "/blob/" ++ (ref ++ ('/' :: path))
    rw [List.dropWhile_cons, hSlash]
    simp
    rfl
  have hT5 : (ref ++ ('/' :: path)).takeWhile (fun c => c != '/') = ref := by
    rw [takeWhile_append_of_all _ _ _ pRef, List.takeWhile_cons, hSlash]
    simp
  have hT6 : (ref ++ ('/' :: path)).dropWhile (fun c => c != '/') = '/' :: path := by
    rw [dropWhile_append_of_all _ _ _ pRef, List.dropWhile_cons, hSlash]
    simp
  have hT7 : path.takeWhile (fun c => !isLineTerm c) = path := by
    refine takeWhile_of_all _ _ (fun c hc => ?_)
    simp [hp c hc]
  simp only [blobMatchAt, stripPre_self_append, hT1, hT2, hT3, hT4, hT5, hT6, hT7,
    if_neg ho, if_neg hr, if_neg hf, stripPre_self_append]

/-- C1: for every URL of the GitHub blob form
`https://github.com/<owner>/<repo>/blob/<ref>/<path>` (segments non-empty and
slash-free, path free of line terminators), the classifier returns
`https://raw.githubusercontent.com/<owner>/<repo>/<ref>/<path>` when the ref is
a 40-character hexadecimal string and
`https://raw.githubusercontent.com/<owner>/<repo>/refs/heads/<ref>/<path>`
otherwise, with the special-case flag set to true. -/
theorem claim_C1 (owner repo ref path : JStr)
    (ho : owner ≠ []) (ho2 : '/' ∉ owner)
    (hr : repo ≠ []) (hr2 : '/' ∉ repo)
    (hf : ref ≠ []) (hf2 : '/' ∉ ref)
    (hp : ∀ c ∈ path, isLineTerm c = false) :
    handleGitHubUrl (jstr "https://github.com/" ++
        (owner ++ ('/' :: (repo ++ (jstr "/blob/" ++ (ref ++ ('/' :: path))))))) =
      { isGitHub := true,
        convertedUrl :=
          if isCommitHash ref then
            jstr "https://raw.githubusercontent.com/" ++
              (owner ++ ('/' :: (repo ++ ('/' :: (ref ++ ('/' :: path))))))
          else
            jstr "https://raw.githubusercontent.com/" ++
              (owner ++ ('/' :: (repo ++ (jstr "/refs/heads/" ++ (ref ++ ('/' :: path)))))),
        originalUrl := jstr "https://github.com/" ++
          (owner ++ ('/' :: (repo ++ (jstr "/blob/" ++ (ref ++ ('/' :: path)))))),
        shouldBypassJina := true } := by
  have hg1 : includesSub (jstr "github.com")
      (jstr "https://github.com/" ++
        (owner ++ ('/' :: (repo ++ (jstr "/blob/" ++ (ref ++ ('/' :: path))))))) = true :=
    includesSub_append_left (jstr "https://") (jstr "github.com")
      (jstr "github.com" ++ (jstr "/" ++ (owner ++ ('/' :: (repo ++ (jstr "/blob/" ++ (ref ++ ('/' :: path))))))))
      (includesSub_self_append (jstr "github.com")
        (jstr "/" ++ (owner ++ ('/' :: (repo ++ (jstr "/blob/" ++ (ref ++ ('/' :: path))))))))
  have hg2 : includesSub (jstr "/blob/")
      (jstr "https://github.com/" ++
        (owner ++ ('/' :: (repo ++ (jstr "/blob/" ++ (ref ++ ('/' :: path))))))) = true :=
    includesSub_append_left (jstr "https://github.com/") (jstr "/blob/")
      (owner ++ (jstr "/" ++ (repo ++ (jstr "/blob/" ++ (ref ++ ('/' :: path))))))
      (includesSub_append_left owner (jstr "/blob/")
        (jstr "/" ++ (repo ++ (jstr "/blob/" ++ (ref ++ ('/' :: path)))))
        (includesSub_append_left (jstr "/") (jstr "/blob/")
          (repo ++ (jstr "/blob/" ++ (ref ++ ('/' :: path))))
          (includesSub_append_left repo (jstr "/blob/")
            (jstr "/blob/" ++ (ref ++ ('/' :: path)))
            (includesSub_self_append (jstr "/blob/") (ref ++ ('/' :: path))))))
  have hs : blobSearch
      (jstr "https://github.com/" ++
        (owner ++ ('/' :: (repo ++ (jstr "/blob/" ++ (ref ++ ('/' :: path))))))) =
      some (owner, repo, ref, path) := by
    have h8 : blobSearch
        (jstr "https://github.com/" ++
          (owner ++ ('/' :: (repo ++ (jstr "/blob/" ++ (ref ++ ('/' :: path))))))) =
        blobSearch
        (jstr "github.com/" ++
          (owner ++ ('/' :: (repo ++ (jstr "/blob/" ++ (ref ++ ('/' :: path))))))) :=
      blobSearch_append_no_g (jstr "https://")
        (jstr "github.com/" ++
          (owner ++ ('/' :: (repo ++ (jstr "/blob/" ++ (ref ++ ('/' :: path)))))))
        (by decide)
    rw [h8]
    exact blobSearch_cons_of_some _ _ _
      (blobMatchAt_canonical owner repo ref path ho ho2 hr hr2 hf hf2 hp)
  simp only [handleGitHubUrl, hg1, hg2, Bool.and_self, if_true, hs]

/-- Witness for C1 at concrete inputs, covering both the branch-name case and the
commit-hash case. -/
theorem claim_C1_witness :
    handleGitHubUrl (jstr "https://github.com/" ++
        (jstr "acme" ++ ('/' :: (jstr "repo" ++ (jstr "/blob/" ++ (jstr "main" ++ ('/' :: jstr "README.md"))))))) =
      { isGitHub := true,
        convertedUrl :=
          if isCommitHash (jstr "main") then
            jstr "https://raw.githubusercontent.com/" ++
              (jstr "acme" ++ ('/' :: (jstr "repo" ++ ('/' :: (jstr "main" ++ ('/' :: jstr "README.md"))))))
          else
            jstr "https://raw.githubusercontent.com/" ++
              (jstr "acme" ++ ('/' :: (jstr "repo" ++ (jstr "/refs/heads/" ++ (jstr "main" ++ ('/' :: jstr "README.md")))))),
        originalUrl := jstr "https://github.com/" ++
          (jstr "acme" ++ ('/' :: (jstr "repo" ++ (jstr "/blob/" ++ (jstr "main" ++ ('/' :: jstr "README.md")))))),
        shouldBypassJina := true } :=
  claim_C1 (jstr "acme") (jstr "repo") (jstr "main") (jstr "README.md")
    (by decide) (by decide) (by decide) (by decide) (by decide) (by decide) (by decide)

/-- C6: for every URL not containing a GitHub blob reference (the conjunction of
the `github.com` and `/blob/` markers), the classifier returns the URL unchanged
and reports the special-case flag false, so the read operation proceeds on the
original URL. -/
theorem claim_C6 (url : JStr)
    (h : ¬ (includesSub (jstr "github.com") url = true ∧ includesSub (jstr "/blob/") url = true)) :
    handleGitHubUrl url =
      { isGitHub := false, convertedUrl := url, originalUrl := url, shouldBypassJina := false } := by
  have hb : (includesSub (jstr "github.com") url && includesSub (jstr "/blob/") url) = false := by
    cases h1 : includesSub (jstr "github.com") url <;>
      cases h2 : includesSub (jstr "/blob/") url <;> simp_all
  simp only [handleGitHubUrl, hb, Bool.false_eq_true, if_false]

/-- Witness for C6 at a concrete non-GitHub URL. -/
theorem claim_C6_witness :
    handleGitHubUrl (jstr "https://example.com/page") =
      { isGitHub := false, convertedUrl := jstr "https://example.com/page",
        originalUrl := jstr "https://example.com/page", shouldBypassJina := false } :=
  claim_C6 (jstr "https://example.com/page") (by decide)

/-- C10: for every input URL the classifier record satisfies the invariants:
`originalUrl` equals the input, `shouldBypassJina` equals `isGitHub`, and when
`isGitHub` is false the `convertedUrl` also equals the input. -/
theorem claim_C10 (url : JStr) :
    (handleGitHubUrl url).originalUrl = url ∧
    (handleGitHubUrl url).shouldBypassJina = (handleGitHubUrl url).isGitHub ∧
    ((handleGitHubUrl url).isGitHub = false → (handleGitHubUrl url).convertedUrl = url) := by
  cases hb : includesSub (jstr "github.com") url && includesSub (jstr "/blob/") url <;>
    simp [handleGitHubUrl, hb]

/-- Witness for C10: the conditional clause discharged at a concrete non-GitHub URL. -/
theorem claim_C10_witness :
    (handleGitHubUrl (jstr "https://news.ycombinator.com")).convertedUrl
      = jstr "https://news.ycombinator.com" :=
  (claim_C10 (jstr "https://news.ycombinator.com")).2.2 (by decide)

/-- C5: for each extraction mode and output format, the header set built for a
non-GitHub URL carries exactly the engine, timeout, links/images-summary and
selector keys of the mode table (plus content-type/accept and the format-derived
return-format key), and no mode-specific key of a different mode appears. -/
theorem claim_C5 (m : ExtractionMode) (f : OutputFormat) :
    getHeader (buildJinaHeaders m f false) "Content-Type" = some "application/json" ∧
    getHeader (buildJinaHeaders m f false) "Accept" = some "application/json" ∧
    getHeader (buildJinaHeaders m f false) "X-Engine" =
      some (if m = .standard then "direct" else "browser") ∧
    getHeader (buildJinaHeaders m f false) "X-Timeout" =
      some (if m = .standard then "10" else "15") ∧
    getHeader (buildJinaHeaders m f false) "X-Target-Selector" =
      (if m = .clean_content then some "main,article,.content" else none) ∧
    getHeader (buildJinaHeaders m f false) "X-Remove-Selector" =
      (if m = .clean_content then some "nav,header,footer,.sidebar,.ads" else none) ∧
    getHeader (buildJinaHeaders m f false) "X-With-Links-Summary" =
      (if m = .clean_content ∧ f ≠ .structured then none else some "true") ∧
    getHeader (buildJinaHeaders m f false) "X-With-Images-Summary" =
      (if m = .comprehensive ∨ f = .structured then some "true" else none) ∧
    getHeader (buildJinaHeaders m f false) "X-Return-Format" =
      (if f = .default then none else if f = .text then some "text" else some "markdown") ∧
    (buildJinaHeaders m f false).all (fun p =>
      p.1 == "Content-Type" || p.1 == "Accept" || p.1 == "X-Engine" || p.1 == "X-Timeout" ||
      p.1 == "X-Target-Selector" || p.1 == "X-Remove-Selector" ||
      p.1 == "X-With-Links-Summary" || p.1 == "X-With-Images-Summary" ||
      p.1 == "X-Return-Format") = true := by
  cases m <;> cases f <;> decide

/-- C9: supplying a positive custom timeout makes the final header set (after the
credential header is applied) carry that value as the timeout header, overriding
the extraction mode's default. -/
theorem claim_C9 (apiKey : Option String) (m : ExtractionMode) (f : OutputFormat)
    (t : Int) (h : 0 < t) :
    getHeader (createHeaders apiKey (withCustomTimeout (buildJinaHeaders m f false) (some t)))
      "X-Timeout" = some (toString t) := by
  have ht : t ≠ 0 := by omega
  cases apiKey <;> cases m <;> cases f <;>
    simp only [withCustomTimeout, createHeaders, ne_eq, ht, not_false_eq_true, if_true,
      if_pos ht] <;>
    rfl

/-- Witness for C9 at a concrete timeout. -/
theorem claim_C9_witness :
    getHeader (createHeaders (some "k")
        (withCustomTimeout (buildJinaHeaders .standard .default false) (some 30)))
      "X-Timeout" = some (toString (30 : Int)) :=
  claim_C9 (some "k") .standard .default 30 (by decide)

/-- C2: for every read invocation whose URL the classifier marks as a GitHub
special case, the handler issues exactly one GET request, with no headers (hence
unauthenticated and free of mode/format/credential headers), to the rewritten
raw-content URL, and on a successful response returns the body text verbatim;
in particular the acme example URL is rewritten to its refs/heads raw URL. -/
theorem claim_C2 (apiKey : Option String) (url : JStr) (mode : ExtractionMode)
    (format : OutputFormat) (customTimeout : Option Int)
    (h : (handleGitHubUrl url).shouldBypassJina = true) :
    (∀ outcome : FetchOutcome,
      (jina_reader apiKey url mode format customTimeout (fun _ => outcome)).2 =
        [{ method := "GET", url := (handleGitHubUrl url).convertedUrl,
           headers := [], body := none }]) ∧
    (∀ resp : Response, respOk resp = true →
      (jina_reader apiKey url mode format customTimeout (fun _ => .success resp)).1 =
        { text := .str resp.body, isError := false }) ∧
    (handleGitHubUrl (jstr "https://github.com/acme/repo/blob/main/README.md")).convertedUrl
      = jstr "https://raw.githubusercontent.com/acme/repo/refs/heads/main/README.md" := by
  refine ⟨?_, ?_, by decide⟩
  · intro outcome
    cases outcome with
    | success resp =>
      cases hok : respOk resp <;> simp [jina_reader, h, hok]
    | networkError msg => simp [jina_reader, h]
  · intro resp hok
    simp [jina_reader, h, hok]

/-- Witness for C2 on the concrete acme URL with a 200 response. -/
theorem claim_C2_witness :
    (jina_reader none (jstr "https://github.com/acme/repo/blob/main/README.md")
        .standard .default none
        (fun _ => .success { status := 200, statusText := "OK", body := "# hello",
                             json := .ok Json.null })).1 =
      { text := .str "# hello", isError := false } :=
  (claim_C2 none (jstr "https://github.com/acme/repo/blob/main/README.md")
      .standard .default none (by decide)).2.1
    { status := 200, statusText := "OK", body := "# hello", json := .ok Json.null }
    (by decide)

/-- The request list issued by the reader handler, for any constant fetch outcome. -/
theorem jina_reader_requests (apiKey : Option String) (url : JStr) (m : ExtractionMode)
    (f : OutputFormat) (cT : Option Int) (outcome : FetchOutcome) :
    (jina_reader apiKey url m f cT (fun _ => outcome)).2 =
      (if (handleGitHubUrl url).shouldBypassJina then
        [{ method := "GET", url := (handleGitHubUrl url).convertedUrl,
           headers := [], body := none }]
      else
        [{ method := "POST", url := jstr "https://r.jina.ai/",
           headers := createHeaders apiKey
             (withCustomTimeout (buildJinaHeaders m f (handleGitHubUrl url).isGitHub) cT),
           body := some (Json.obj
             [("url", Json.str (String.mk (handleGitHubUrl url).convertedUrl))]) }]) := by
  cases hb : (handleGitHubUrl url).shouldBypassJina with
  | true =>
    cases outcome with
    | networkError msg => simp [jina_reader, hb]
    | success resp =>
      simp only [jina_reader, hb, if_true]
      split <;> rfl
  | false =>
    cases outcome with
    | networkError msg => simp [jina_reader, hb]
    | success resp =>
      simp only [jina_reader, hb, Bool.false_eq_true, if_false]
      cases hok : respOk resp with
      | false => simp [hok]
      | true =>
        simp only [hok, if_true]
        rcases hj : resp.json with msg | data
        · simp [hj]
        · simp only [hj]
          rcases hjg : jsGet data "data" with m2 | dOpt
          · simp [hjg]
          · simp only [hjg]
            rcases hc : jsGet (if truthyO dOpt then dOpt.getD (Json.obj []) else Json.obj [])
                "content" with m3 | cOpt <;> simp [hc]

/-- The request list issued by the search handler, for any constant fetch outcome. -/
theorem jina_search_requests (apiKey : Option String) (query : JStr) (cnt : Int)
    (sf : Option String) (outcome : FetchOutcome) :
    (jina_search apiKey query cnt sf (fun _ => outcome)).2 =
      [{ method := "GET", url := jstr "https://s.jina.ai/?q=" ++ encodeURIComponent query,
         headers := createHeaders apiKey
           (match sf with
            | some s =>
              if s ≠ "" then setHeader [("X-Respond-With", "no-content")] "X-Site" ("https://" ++ s)
              else [("X-Respond-With", "no-content")]
            | none => [("X-Respond-With", "no-content")]),
         body := none }] := by
  cases outcome with
  | networkError msg => simp [jina_search]
  | success resp =>
    simp only [jina_search]
    split <;> rfl

/-- The timeout-adjusted mode/format header set never contains a credential header. -/
theorem auth_none_built (g : Bool) (m : ExtractionMode) (f : OutputFormat) (cT : Option Int) :
    getHeader (withCustomTimeout (buildJinaHeaders m f g) cT) "Authorization" = none := by
  cases cT with
  | none => cases g <;> cases m <;> cases f <;> rfl
  | some t =>
    by_cases ht : t = 0
    · simp only [withCustomTimeout, ne_eq, ht, not_true_eq_false, if_false]
      cases g <;> cases m <;> cases f <;> rfl
    · simp only [withCustomTimeout, ne_eq, ht, not_false_eq_true, if_true]
      cases g <;> cases m <;> cases f <;> rfl

/-- Counterexample to C3 as stated: with a credential present, a read invocation
on a GitHub blob URL issues its single outgoing request with an empty header
set, hence without any Authorization bearer header. -/
theorem claim_C3_cex :
    (jina_reader (some "secret-key") (jstr "https://github.com/a/b/blob/main/f.md")
        .standard .default none
        (fun _ => .success { status := 200, statusText := "OK", body := "x",
                             json := .ok Json.null })).2 =
      [{ method := "GET", url := jstr "https://raw.githubusercontent.com/a/b/refs/heads/main/f.md",
         headers := [], body := none }] ∧
    getHeader ([] : HeaderSet) "Authorization" = none :=
  ⟨rfl, rfl⟩

/-- C3 amended: with no credential, no outgoing request of any tool (read,
search, fact-check) carries an Authorization header; with a credential present,
the Jina-endpoint requests of read (non-bypass), search and fact-check all carry
the bearer header, while the GitHub-bypass GET of the read tool is sent with no
headers at all and therefore remains unauthenticated. -/
theorem claim_C3 :
    (∀ (url : JStr) (m : ExtractionMode) (f : OutputFormat) (cT : Option Int)
        (outcome : FetchOutcome) (rq : Request),
        rq ∈ (jina_reader none url m f cT (fun _ => outcome)).2 →
        getHeader rq.headers "Authorization" = none) ∧
    (∀ (query : JStr) (cnt : Int) (sf : Option String) (outcome : FetchOutcome) (rq : Request),
        rq ∈ (jina_search none query cnt sf (fun _ => outcome)).2 →
        getHeader rq.headers "Authorization" = none) ∧
    (∀ (stmt : String) (dd : Bool),
        getHeader (jina_fact_check_request none stmt dd).headers "Authorization" = none) ∧
    (∀ (key : String) (url : JStr) (m : ExtractionMode) (f : OutputFormat) (cT : Option Int)
        (outcome : FetchOutcome) (rq : Request),
        (handleGitHubUrl url).shouldBypassJina = false →
        rq ∈ (jina_reader (some key) url m f cT (fun _ => outcome)).2 →
        getHeader rq.headers "Authorization" = some ("Bearer " ++ key)) ∧
    (∀ (key : String) (query : JStr) (cnt : Int) (sf : Option String)
        (outcome : FetchOutcome) (rq : Request),
        rq ∈ (jina_search (some key) query cnt sf (fun _ => outcome)).2 →
        getHeader rq.headers "Authorization" = some ("Bearer " ++ key)) ∧
    (∀ (key : String) (stmt : String) (dd : Bool),
        getHeader (jina_fact_check_request (some key) stmt dd).headers "Authorization"
          = some ("Bearer " ++ key)) ∧
    (∀ (key : String) (url : JStr) (m : ExtractionMode) (f : OutputFormat) (cT : Option Int)
        (outcome : FetchOutcome) (rq : Request),
        (handleGitHubUrl url).shouldBypassJina = true →
        rq ∈ (jina_reader (some key) url m f cT (fun _ => outcome)).2 →
        getHeader rq.headers "Authorization" = none) := by
  refine ⟨?_, ?_, ?_, ?_, ?_, ?_, ?_⟩
  · intro url m f cT outcome rq hmem
    rw [jina_reader_requests] at hmem
    by_cases hb : (handleGitHubUrl url).shouldBypassJina = true
    · rw [if_pos hb] at hmem
      rw [List.mem_singleton.mp hmem]
      rfl
    · rw [if_neg hb] at hmem
      rw [List.mem_singleton.mp hmem]
      exact auth_none_built _ m f cT
  · intro query cnt sf outcome rq hmem
    rw [jina_search_requests] at hmem
    rw [List.mem_singleton.mp hmem]
    cases sf with
    | none => rfl
    | some s =>
      by_cases hse : s = ""
      · simp only [ne_eq, hse, not_true_eq_false, if_false]
        rfl
      · simp only [ne_eq, hse, not_false_eq_true, if_true]
        rfl
  · intro stmt dd
    rfl
  · intro key url m f cT outcome rq hb hmem
    rw [jina_reader_requests, if_neg (by rw [hb]; exact Bool.false_ne_true)] at hmem
    rw [List.mem_singleton.mp hmem]
    exact getHeader_set_same _ _ _
  · intro key query cnt sf outcome rq hmem
    rw [jina_search_requests] at hmem
    rw [List.mem_singleton.mp hmem]
    exact getHeader_set_same _ _ _
  · intro key stmt dd
    show getHeader (setHeader [("Content-Type", "application/json"),
        ("Accept", "application/json")] "Authorization" ("Bearer " ++ key))
      "Authorization" = some ("Bearer " ++ key)
    exact getHeader_set_same _ _ _
  · intro key url m f cT outcome rq hb hmem
    rw [jina_reader_requests, if_pos hb] at hmem
    rw [List.mem_singleton.mp hmem]
    rfl

/-- Witness for C3 (amended) on concrete inputs: a credentialed search request
carries the bearer header. -/
theorem claim_C3_witness :
    getHeader [("X-Respond-With", "no-content"), ("Authorization", "Bearer k1")] "Authorization"
      = some ("Bearer " ++ "k1") :=
  claim_C3.2.2.2.2.1 "k1" (jstr "hello") 5 none (.networkError "down")
    { method := "GET", url := jstr "https://s.jina.ai/?q=" ++ encodeURIComponent (jstr "hello"),
      headers := [("X-Respond-With", "no-content"), ("Authorization", "Bearer k1")],
      body := none }
    (List.mem_cons_self _ _)

/-- C4: every per-invocation error is contained as a tool result with the error
flag set: a non-2xx response (on either reader path or the search path) yields
`isError = true` with the numeric status code inside the message text, and
network errors and JSON parse errors likewise become error results instead of
escaping the handler. -/
theorem claim_C4 :
    (∀ (apiKey : Option String) (url : JStr) (m : ExtractionMode) (f : OutputFormat)
        (cT : Option Int) (resp : Response), respOk resp = false →
        (jina_reader apiKey url m f cT (fun _ => .success resp)).1.isError = true ∧
        includesSub (jstr (toString resp.status))
          (jstr (jina_reader apiKey url m f cT (fun _ => .success resp)).1.textString) = true) ∧
    (∀ (apiKey : Option String) (url : JStr) (m : ExtractionMode) (f : OutputFormat)
        (cT : Option Int) (msg : String),
        (jina_reader apiKey url m f cT (fun _ => .networkError msg)).1 =
          { text := .str msg, isError := true }) ∧
    (∀ (apiKey : Option String) (url : JStr) (m : ExtractionMode) (f : OutputFormat)
        (cT : Option Int) (resp : Response) (pmsg : String),
        (handleGitHubUrl url).shouldBypassJina = false → respOk resp = true →
        resp.json = .error pmsg →
        (jina_reader apiKey url m f cT (fun _ => .success resp)).1 =
          { text := .str pmsg, isError := true }) ∧
    (∀ (apiKey : Option String) (query : JStr) (cnt : Int) (sf : Option String)
        (resp : Response), respOk resp = false →
        (jina_search apiKey query cnt sf (fun _ => .success resp)).1.isError = true ∧
        includesSub (jstr (toString resp.status))
          (jstr (jina_search apiKey query cnt sf (fun _ => .success resp)).1.textString) = true) ∧
    (∀ (apiKey : Option String) (query : JStr) (cnt : Int) (sf : Option String) (msg : String),
        (jina_search apiKey query cnt sf (fun _ => .networkError msg)).1 =
          { text := .str msg, isError := true }) := by
  refine ⟨?_, ?_, ?_, ?_, ?_⟩
  · intro apiKey url m f cT resp hok
    cases hb : (handleGitHubUrl url).shouldBypassJina with
    | true =>
      have hres : (jina_reader apiKey url m f cT (fun _ => .success resp)).1 =
          { text := .str ("GitHub API error (" ++ (toString resp.status ++ ("): " ++ resp.statusText))),
            isError := true } := by
        simp [jina_reader, hb, hok]
      rw [hres]
      refine ⟨rfl, ?_⟩
      exact includesSub_append_left (jstr "GitHub API error (") _
        (jstr (toString resp.status) ++ jstr ("): " ++ resp.statusText))
        (includesSub_self_append (jstr (toString resp.status)) (jstr ("): " ++ resp.statusText)))
    | false =>
      have hres : (jina_reader apiKey url m f cT (fun _ => .success resp)).1 =
          { text := .str ("Jina Reader API error (" ++ (toString resp.status ++ ("): " ++ resp.body))),
            isError := true } := by
        simp [jina_reader, hb, hok]
      rw [hres]
      refine ⟨rfl, ?_⟩
      exact includesSub_append_left (jstr "Jina Reader API error (") _
        (jstr (toString resp.status) ++ jstr ("): " ++ resp.body))
        (includesSub_self_append (jstr (toString resp.status)) (jstr ("): " ++ resp.body)))
  · intro apiKey url m f cT msg
    cases hb : (handleGitHubUrl url).shouldBypassJina <;> simp [jina_reader, hb]
  · intro apiKey url m f cT resp pmsg hb hok hj
    simp [jina_reader, hb, hok, hj]
  · intro apiKey query cnt sf resp hok
    have hres : (jina_search apiKey query cnt sf (fun _ => .success resp)).1 =
        { text := .str ("Jina Search API error (" ++ (toString resp.status ++ ("): " ++ resp.body))),
          isError := true } := by
      simp [jina_search, hok]
    rw [hres]
    refine ⟨rfl, ?_⟩
    exact includesSub_append_left (jstr "Jina Search API error (") _
      (jstr (toString resp.status) ++ jstr ("): " ++ resp.body))
      (includesSub_self_append (jstr (toString resp.status)) (jstr ("): " ++ resp.body)))
  · intro apiKey query cnt sf msg
    simp [jina_search]

/-- Witness for C4: a 404 reader response becomes an error result whose message
contains the status code. -/
theorem claim_C4_witness :
    (jina_reader none (jstr "https://example.com") ExtractionMode.standard OutputFormat.default
        none (fun _ => FetchOutcome.success
          { status := 404, statusText := "Not Found", body := "gone",
            json := Except.error "parse" })).1.isError = true ∧
    includesSub (jstr (toString (404 : Nat)))
      (jstr (jina_reader none (jstr "https://example.com") ExtractionMode.standard
          OutputFormat.default none (fun _ => FetchOutcome.success
            { status := 404, statusText := "Not Found", body := "gone",
              json := Except.error "parse" })).1.textString) = true :=
  claim_C4.1 none (jstr "https://example.com") .standard .default none
    { status := 404, statusText := "Not Found", body := "gone", json := .error "parse" } rfl

/-- Property access agrees with pure field lookup on every non-null value. -/
theorem jsGet_eq_lookup (v : Json) (k : String) (h : v ≠ Json.null) :
    jsGet v k = .ok (v.lookup k) := by
  cases v <;> simp [jsGet, Json.lookup] at h ⊢

/-- The `data.data || {}` fallback value is never null. -/
theorem responseData_ne_null (dOpt : Option Json) :
    (if truthyO dOpt then dOpt.getD (Json.obj []) else Json.obj []) ≠ Json.null := by
  split
  · next h =>
    cases dOpt with
    | none => simp [truthyO] at h
    | some j => cases j <;> simp_all [truthyO, Json.truthy]
  · simp

/-- Characterization of the reader result on the regular path for a 2xx response
with parsed JSON body: the nested content field when truthy, the placeholder
otherwise. -/
theorem jina_reader_ok (apiKey : Option String) (url : JStr) (m : ExtractionMode)
    (f : OutputFormat) (cT : Option Int) (resp : Response)
    (hb : (handleGitHubUrl url).shouldBypassJina = false)
    (hok : respOk resp = true) (data : Json) (hj : resp.json = .ok data)
    (hnn : data ≠ Json.null) :
    (jina_reader apiKey url m f cT (fun _ => .success resp)).1 =
      { text :=
          (if truthyO ((if truthyO (data.lookup "data") then (data.lookup "data").getD (Json.obj [])
              else Json.obj []).lookup "content")
           then ((if truthyO (data.lookup "data") then (data.lookup "data").getD (Json.obj [])
              else Json.obj []).lookup "content").getD (Json.str "No content extracted")
           else Json.str "No content extracted"),
        isError := false } := by
  have h1 := jsGet_eq_lookup data "data" hnn
  have h2 := jsGet_eq_lookup
    (if truthyO (data.lookup "data") then (data.lookup "data").getD (Json.obj []) else Json.obj [])
    "content" (responseData_ne_null _)
  simp [jina_reader, hb, hok, hj, h1, h2]

/-- Counterexample to C7 as stated: when the nested content field is present but
equal to the empty string, the handler returns the placeholder instead of the
field value, so "extracts the content field when present" fails. -/
theorem claim_C7_cex :
    ((Json.obj [("data", Json.obj [("content", Json.str "")])]).lookup "data").isSome = true ∧
    ((Json.obj [("content", Json.str "")]).lookup "content") = some (Json.str "") ∧
    (jina_reader none (jstr "https://example.com/a") .standard .default none
        (fun _ => .success
          { status := 200, statusText := "OK", body := "",
            json := .ok (Json.obj [("data", Json.obj [("content", Json.str "")])]) })).1.text
      = Json.str "No content extracted" ∧
    Json.str "No content extracted" ≠ Json.str "" :=
  ⟨rfl, rfl, rfl, by simp⟩

/-- C7 amended: on the regular path with a 2xx JSON response, the handler
returns the nested `data.content` field when it is present and truthy (a
non-empty string), and otherwise returns the literal placeholder
"No content extracted"; the whole payload is never returned. -/
theorem claim_C7 (apiKey : Option String) (url : JStr) (m : ExtractionMode)
    (f : OutputFormat) (cT : Option Int) (resp : Response)
    (hb : (handleGitHubUrl url).shouldBypassJina = false)
    (hok : respOk resp = true) (data : Json) (hj : resp.json = .ok data) :
    (∀ (dd : Json) (c : String), data.lookup "data" = some dd →
        dd.lookup "content" = some (Json.str c) → c ≠ "" →
        (jina_reader apiKey url m f cT (fun _ => .success resp)).1 =
          { text := .str c, isError := false }) ∧
    (∀ fields : List (String × Json), data = Json.obj fields →
        (∀ dd : Json, data.lookup "data" = some dd →
          dd.lookup "content" = none ∨ dd.lookup "content" = some (Json.str "")) →
        (jina_reader apiKey url m f cT (fun _ => .success resp)).1 =
          { text := .str "No content extracted", isError := false }) := by
  constructor
  · intro dd c hdd hcc hc
    have hnn : data ≠ Json.null := by
      intro e
      rw [e] at hdd
      simp [Json.lookup] at hdd
    rw [jina_reader_ok apiKey url m f cT resp hb hok data hj hnn]
    cases dd with
    | obj f2 =>
      simp [hdd, hcc, truthyO, Json.truthy, hc]
    | null => simp [Json.lookup] at hcc
    | bool b => simp [Json.lookup] at hcc
    | num n => simp [Json.lookup] at hcc
    | str s => simp [Json.lookup] at hcc
    | arr xs => simp [Json.lookup] at hcc
  · intro fields hdf hspec
    have hnn : data ≠ Json.null := by
      rw [hdf]
      simp
    rw [jina_reader_ok apiKey url m f cT resp hb hok data hj hnn]
    cases hdd : data.lookup "data" with
    | none => simp [hdd, truthyO, Json.lookup]
    | some dd =>
      cases dd with
      | null => simp [hdd, truthyO, Json.truthy, Json.lookup]
      | bool b => cases b <;> simp [hdd, truthyO, Json.truthy, Json.lookup]
      | num n =>
        by_cases hn : n = 0 <;> simp [hdd, truthyO, Json.truthy, Json.lookup, hn]
      | str s =>
        by_cases hsv : s = "" <;> simp [hdd, truthyO, Json.truthy, Json.lookup, hsv]
      | arr xs => simp [hdd, truthyO, Json.truthy, Json.lookup]
      | obj f2 =>
        rcases hspec (Json.obj f2) hdd with hco | hco <;>
          simp [hdd, truthyO, Json.truthy, hco]

/-- Witness for C7 (amended) at a concrete non-empty content field. -/
theorem claim_C7_witness :
    (jina_reader none (jstr "https://example.com/a") ExtractionMode.standard
        OutputFormat.default none
        (fun _ => FetchOutcome.success
          { status := 200, statusText := "OK", body := "",
            json := Except.ok (Json.obj [("data", Json.obj [("content", Json.str "body text")])]) })).1
      = { text := Json.str "body text", isError := false } :=
  (claim_C7 none (jstr "https://example.com/a") .standard .default none
      { status := 200, statusText := "OK", body := "",
        json := .ok (Json.obj [("data", Json.obj [("content", Json.str "body text")])]) }
      rfl rfl (Json.obj [("data", Json.obj [("content", Json.str "body text")])]) rfl).1
    (Json.obj [("content", Json.str "body text")]) "body text" rfl rfl (by decide)

/-- C8: every search invocation issues exactly one GET to the search endpoint
with the URL-encoded query as the `q` parameter and no body; when a (non-empty)
site filter is given, the issued request carries an `X-Site` header equal to
`https://<siteFilter>`; on a 2xx response the raw response text is returned
unmodified; and the count parameter has no effect on the outcome whatsoever. -/
theorem claim_C8 (apiKey : Option String) (query : JStr) (cnt cnt2 : Int)
    (siteFilter : Option String) (outcome : FetchOutcome) :
    (jina_search apiKey query cnt siteFilter (fun _ => outcome)).2 =
      [{ method := "GET", url := jstr "https://s.jina.ai/?q=" ++ encodeURIComponent query,
         headers := createHeaders apiKey
           (match siteFilter with
            | some s =>
              if s ≠ "" then setHeader [("X-Respond-With", "no-content")] "X-Site" ("https://" ++ s)
              else [("X-Respond-With", "no-content")]
            | none => [("X-Respond-With", "no-content")]),
         body := none }] ∧
    (∀ sf : String, siteFilter = some sf → sf ≠ "" →
        ∀ rq ∈ (jina_search apiKey query cnt siteFilter (fun _ => outcome)).2,
          getHeader rq.headers "X-Site" = some ("https://" ++ sf)) ∧
    (∀ resp : Response, outcome = .success resp → respOk resp = true →
        (jina_search apiKey query cnt siteFilter (fun _ => outcome)).1 =
          { text := .str resp.body, isError := false }) ∧
    jina_search apiKey query cnt siteFilter (fun _ => outcome)
      = jina_search apiKey query cnt2 siteFilter (fun _ => outcome) := by
  refine ⟨jina_search_requests apiKey query cnt siteFilter outcome, ?_, ?_, rfl⟩
  · intro sf hsf hne rq hmem
    subst hsf
    rw [jina_search_requests] at hmem
    simp only [ne_eq, hne, not_false_eq_true, if_true] at hmem
    rw [List.mem_singleton.mp hmem]
    show getHeader (createHeaders apiKey
      (setHeader [("X-Respond-With", "no-content")] "X-Site" ("https://" ++ sf))) "X-Site"
      = some ("https://" ++ sf)
    cases apiKey with
    | none => exact getHeader_set_same _ _ _
    | some key =>
      show getHeader (setHeader
        (setHeader [("X-Respond-With", "no-content")] "X-Site" ("https://" ++ sf))
        "Authorization" ("Bearer " ++ key)) "X-Site" = some ("https://" ++ sf)
      rw [getHeader_set_other _ _ _ _ (by decide)]
      exact getHeader_set_same _ _ _
  · intro resp heq hok
    subst heq
    simp [jina_search, hok]

/-- Witness for C8: the concrete end-to-end search for "quantum computing"
restricted to github.com carries the site-restriction header, and an unfiltered
search returns the raw 2xx body unmodified. -/
theorem claim_C8_witness :
    getHeader (createHeaders none
        (setHeader [("X-Respond-With", "no-content")] "X-Site" ("https://" ++ "github.com")))
      "X-Site" = some ("https://" ++ "github.com") ∧
    (jina_search none (jstr "quantum computing") 5 none
        (fun _ => FetchOutcome.success
          { status := 200, statusText := "OK", body := "results", json := .ok Json.null })).1 =
      { text := Json.str "results", isError := false } :=
  ⟨(claim_C8 none (jstr "quantum computing") 5 7 (some "github.com")
      (.success { status := 200, statusText := "OK", body := "results", json := .ok Json.null })).2.1
     "github.com" rfl (by decide)
     { method := "GET",
       url := jstr "https://s.jina.ai/?q=" ++ encodeURIComponent (jstr "quantum computing"),
       headers := createHeaders none
         (setHeader [("X-Respond-With", "no-content")] "X-Site" ("https://" ++ "github.com")),
       body := none }
     (List.mem_cons_self _ _),
   (claim_C8 none (jstr "quantum computing") 5 7 none
      (.success { status := 200, statusText := "OK", body := "results", json := .ok Json.null })).2.2.1
     { status := 200, statusText := "OK", body := "results", json := .ok Json.null } rfl rfl⟩
